import Mathlib

/-!
Verification of the user-dashboard collection pipeline.

This file gives a shallow embedding of the client-side data model and the
operations of the repository:

* the record type and filter criteria (`src/types` / `src/types/user.ts`),
* the query engine `filterUsers` with `getNestedValue` and the paginator
  `paginateArray` (`src/lib/utils.ts`),
* the backing service post-processing `enhanceUser`, `createUser`,
  `updateUser`, `deleteUsers` of class `ApiService` (`src/services/api.ts`),
* the mutation operations and pagination/filter state transitions of the
  `useUsers` hook (the view-model hook).

Modelling conventions:

* JavaScript numbers holding ids, salaries, timestamps are modelled as `Int`.
* TypeScript optional fields (`role?`, `status?`, `createdAt?`, ...) and
  `Partial<UserFilters>` fields are modelled as `Option`; an absent property
  and an `undefined` property are both `none`.
* `Array.prototype.sort` is required by ECMAScript to be stable; it is
  modelled as `List.mergeSort` taking the left element whenever
  `comparefn l r <= 0`, which is the standard stable-merge reading.
* `Array.prototype.slice` negative-index handling is modelled exactly
  (`jsSlice` below).
* `new Date(s)` comparisons are modelled as lexicographic comparison of the
  ISO-8601 strings, which agrees with chronological order for the
  `toISOString` values the repository produces.
* `Math.random()`-derived values and `Date.now()` inside `ApiService` are
  threaded explicitly through an `ApiEnv` environment.
* the asynchronous backing call of each mutation is modelled by an
  `ApiResult` parameter: `ok` carries the resolved value, `fail` the message
  of the rejection; the store contents at the moment the call is awaited is
  recorded in the `preCallStore` field of each outcome.
-/

/-- Closed role enumeration of `src/types` (`'admin' | 'user' | 'manager'`). -/
inductive Role
  | admin
  | user
  | manager
deriving DecidableEq

/-- Closed status enumeration (`'active' | 'inactive'`). -/
inductive Status
  | active
  | inactive
deriving DecidableEq

/-- The string literal of a role, as it appears in the TypeScript source. -/
def roleStr : Role → String
  | .admin => "admin"
  | .user => "user"
  | .manager => "manager"

/-- The string literal of a status. -/
def statusStr : Status → String
  | .active => "active"
  | .inactive => "inactive"

/-- Geo coordinates of an address (`src/types`). -/
structure Geo where
  lat : String
  lng : String
deriving DecidableEq

/-- Nested address object of a user record (`src/types`). -/
structure Address where
  street : String
  suite : String
  city : String
  zipcode : String
  geo : Geo
deriving DecidableEq

/-- Nested company object of a user record (`src/types`). -/
structure Company where
  name : String
  catchPhrase : String
  bs : String
deriving DecidableEq

/-- The managed record (`interface User` of `src/types`, with the employment
fields `jobTitle`, `salary`, `hasSalary` used by `src/lib/utils.ts`). -/
structure User where
  id : Int
  name : String
  username : String
  email : String
  phone : String
  website : String
  address : Address
  company : Company
  avatar : Option String := none
  status : Option Status := none
  role : Option Role := none
  jobTitle : String
  salary : Int
  hasSalary : Bool
  createdAt : Option String := none
  updatedAt : Option String := none
deriving DecidableEq

/-- Address part of the create/update form payload (`interface UserFormData`). -/
structure FormAddress where
  street : String
  city : String
  zipcode : String
deriving DecidableEq

/-- Company part of the form payload. -/
structure FormCompany where
  name : String
deriving DecidableEq

/-- The create/update form payload (`interface UserFormData`). -/
structure UserFormData where
  name : String
  username : String
  email : String
  phone : String
  website : String
  company : FormCompany
  address : FormAddress
  role : Option Role := none
  status : Option Status := none
  jobTitle : String
  salary : Int
  hasSalary : Bool
deriving DecidableEq

/-- Sort direction (`'asc' | 'desc'`). -/
inductive SortOrder
  | asc
  | desc
deriving DecidableEq

/-- The keys of `interface User` (`keyof User`), usable as `sortBy`. -/
inductive UserKey
  | id
  | name
  | username
  | email
  | phone
  | website
  | address
  | company
  | avatar
  | status
  | role
  | jobTitle
  | salary
  | hasSalary
  | createdAt
  | updatedAt
deriving DecidableEq

/-- The filter criteria (`Partial<UserFilters>` of `src/types`): every field
optional; `none` models a property that is absent or `undefined`. -/
structure UserFilters where
  search : Option String := none
  role : Option String := none
  status : Option String := none
  hasSalary : Option String := none
  salaryMin : Option Int := none
  salaryMax : Option Int := none
  company : Option String := none
  jobTitle : Option String := none
  city : Option String := none
  createdAfter : Option String := none
  createdBefore : Option String := none
  sortBy : Option UserKey := none
  sortOrder : Option SortOrder := none
deriving DecidableEq

/-- JavaScript truthiness of an optional string: `undefined` and the empty
string are falsy, every other string truthy. -/
def truthyS : Option String → Bool
  | none => false
  | some s => s != ""

/-- A JavaScript value that `getNestedValue` can return for a `keyof User`:
a primitive string, number or boolean, a (plain) object, or `undefined`. -/
inductive UVal
  | str (s : String)
  | int (n : Int)
  | bool (b : Bool)
  | obj
  | undefined
deriving DecidableEq

/-- Lexicographic strict comparison of two character lists by code point
(JavaScript compares strings by UTF-16 code unit; the two orders coincide on
the Basic Multilingual Plane, which covers every string this repository
produces). -/
def strLtB : List Char → List Char → Bool
  | [], [] => false
  | [], _ :: _ => true
  | _ :: _, [] => false
  | a :: as, b :: bs =>
    if a.toNat < b.toNat then true
    else if b.toNat < a.toNat then false
    else strLtB as bs

/-- JavaScript `aValue > bValue` for the values produced by `getNestedValue`.
Two strings compare lexicographically, two numbers numerically, two booleans
with `true > false`; every comparison involving `undefined` is false, and two
plain objects (both coerced to the string `[object Object]`) compare as equal,
hence also false. Mixed primitive kinds never arise because both operands come
from the same record field. -/
def UVal.jsGt : UVal → UVal → Bool
  | .str a, .str b => strLtB b.data a.data
  | .int a, .int b => decide (b < a)
  | .bool a, .bool b => a && !b
  | _, _ => false

/-- Kind tag of a `UVal`, used to state when the sort comparison is a total
preorder. -/
inductive UKind
  | kstr
  | kint
  | kbool
  | kobj
  | kundefined
deriving DecidableEq

/-- The kind of a `UVal`. -/
def UVal.kind : UVal → UKind
  | .str _ => .kstr
  | .int _ => .kint
  | .bool _ => .kbool
  | .obj => .kobj
  | .undefined => .kundefined

/-- The value of a record at a key (`getNestedValue(obj, path)` of
`src/lib/utils.ts`, restricted to the single-segment paths `keyof User` that
the application passes as `sortBy`). Optional fields yield `undefined` when
missing; the nested `address`/`company` objects yield a plain object. -/
def getNestedValue (u : User) : UserKey → UVal
  | .id => .int u.id
  | .name => .str u.name
  | .username => .str u.username
  | .email => .str u.email
  | .phone => .str u.phone
  | .website => .str u.website
  | .address => .obj
  | .company => .obj
  | .avatar => match u.avatar with | some s => .str s | none => .undefined
  | .status => match u.status with | some s => .str (statusStr s) | none => .undefined
  | .role => match u.role with | some r => .str (roleStr r) | none => .undefined
  | .jobTitle => .str u.jobTitle
  | .salary => .int u.salary
  | .hasSalary => .bool u.hasSalary
  | .createdAt => match u.createdAt with | some s => .str s | none => .undefined
  | .updatedAt => match u.updatedAt with | some s => .str s | none => .undefined

/-- The sort comparator of `filterUsers` (`src/lib/utils.ts` lines 152-160):
descending returns `bValue > aValue ? 1 : -1`, ascending returns
`aValue > bValue ? 1 : -1`. Note it never returns 0. -/
def sortCompare (f : UserFilters) (key : UserKey) (a b : User) : Int :=
  let aValue := getNestedValue a key
  let bValue := getNestedValue b key
  if f.sortOrder == some SortOrder.desc then
    if UVal.jsGt bValue aValue then 1 else -1
  else
    if UVal.jsGt aValue bValue then 1 else -1

/-- The "take the left element" relation of the stable sort: a stable sort
keeps the left element first exactly when the comparator is at most 0. -/
def sortLE (f : UserFilters) (key : UserKey) (a b : User) : Bool :=
  decide (sortCompare f key a b ≤ 0)

/-- JavaScript `haystack.includes(sub)`: some contiguous substring of `s`
equals `sub`. -/
def strIncludes (s sub : String) : Bool :=
  (List.range (s.data.length + 1)).any (fun i => sub.data.isPrefixOf (s.data.drop i))

/-- The free-text search predicate of `filterUsers` (lines 72-80): the search
string is lowercased once; every field except `phone` is lowercased before the
substring test. -/
def searchPred (search : String) (u : User) : Bool :=
  strIncludes u.name.toLower search ||
  strIncludes u.email.toLower search ||
  strIncludes u.username.toLower search ||
  strIncludes u.jobTitle.toLower search ||
  strIncludes u.company.name.toLower search ||
  strIncludes u.address.city.toLower search ||
  strIncludes u.phone search

/-- JavaScript `user.role === filters.role` with `user.role` possibly
`undefined`: an undefined role never equals a (truthy) filter string. -/
def roleOptStr : Option Role → Option String
  | some r => some (roleStr r)
  | none => none

/-- Same for `user.status`. -/
def statusOptStr : Option Status → Option String
  | some s => some (statusStr s)
  | none => none

/-- One conditional filter pass of `filterUsers`: the source pattern
`if (cond) { filtered = filtered.filter(pred) }`. -/
def maybeFilter (active : Bool) (p : User → Bool) (l : List User) : List User :=
  if active then l.filter p else l

/-- The date lower-bound predicate (lines 135-141): records with a missing
`createdAt` never match; otherwise `new Date(user.createdAt) >= afterDate`,
modelled on the ISO strings. -/
def createdAfterPred (bound : String) (u : User) : Bool :=
  match u.createdAt with
  | none => false
  | some d => decide (bound ≤ d)

/-- The date upper-bound predicate (lines 142-148). -/
def createdBeforePred (bound : String) (u : User) : Bool :=
  match u.createdAt with
  | none => false
  | some d => decide (d ≤ bound)

/-- The sequential filter passes of `filterUsers` (`src/lib/utils.ts` lines
66-148), in source order; the three-way salary-status block (lines 94-100) is
its two mutually exclusive branches. -/
def applyFilters (users : List User) (f : UserFilters) : List User :=
  let l1 := maybeFilter (truthyS f.search)
    (searchPred ((f.search.getD "").toLower)) users
  let l2 := maybeFilter (truthyS f.role && (f.role.getD "" != "all"))
    (fun u => roleOptStr u.role == f.role) l1
  let l3 := maybeFilter (truthyS f.status && (f.status.getD "" != "all"))
    (fun u => statusOptStr u.status == f.status) l2
  let l4 := maybeFilter
    (truthyS f.hasSalary && (f.hasSalary.getD "" != "all") && (f.hasSalary.getD "" == "yes"))
    (fun u => u.hasSalary) l3
  let l5 := maybeFilter
    (truthyS f.hasSalary && (f.hasSalary.getD "" != "all") && (f.hasSalary.getD "" == "no"))
    (fun u => !u.hasSalary) l4
  let l6 := maybeFilter f.salaryMin.isSome
    (fun u => u.hasSalary && decide (f.salaryMin.getD 0 ≤ u.salary)) l5
  let l7 := maybeFilter f.salaryMax.isSome
    (fun u => u.hasSalary && decide (u.salary ≤ f.salaryMax.getD 0)) l6
  let l8 := maybeFilter (truthyS f.company && ((f.company.getD "").trim != ""))
    (fun u => strIncludes u.company.name.toLower ((f.company.getD "").toLower)) l7
  let l9 := maybeFilter (truthyS f.jobTitle && ((f.jobTitle.getD "").trim != ""))
    (fun u => strIncludes u.jobTitle.toLower ((f.jobTitle.getD "").toLower)) l8
  let l10 := maybeFilter (truthyS f.city && ((f.city.getD "").trim != ""))
    (fun u => strIncludes u.address.city.toLower ((f.city.getD "").toLower)) l9
  let l11 := maybeFilter (truthyS f.createdAfter && ((f.createdAfter.getD "").trim != ""))
    (createdAfterPred (f.createdAfter.getD "")) l10
  let l12 := maybeFilter (truthyS f.createdBefore && ((f.createdBefore.getD "").trim != ""))
    (createdBeforePred (f.createdBefore.getD "")) l11
  l12

/-- The query engine `filterUsers` (`src/lib/utils.ts` lines 66-164): the
filter passes followed, when `filters.sortBy` is set, by the stable sort with
the comparator `sortCompare`. -/
def filterUsers (users : List User) (f : UserFilters) : List User :=
  match f.sortBy with
  | some key => (applyFilters users f).mergeSort (fun a b => sortLE f key a b)
  | none => applyFilters users f

/-- JavaScript `array.slice(start, end)`: negative indices count from the end
of the array, then both are clamped to `[0, len]`. -/
def jsSlice {α : Type} (l : List α) (start stop : Int) : List α :=
  let len : Int := l.length
  let s := if start < 0 then max (len + start) 0 else min start len
  let e := if stop < 0 then max (len + stop) 0 else min stop len
  (l.drop s.toNat).take (e - s).toNat

/-- The paginator (`src/lib/utils.ts` lines 172-176):
`array.slice((page-1)*limit, (page-1)*limit + limit)`. -/
def paginateArray {α : Type} (array : List α) (page limit : Int) : List α :=
  let startIndex := (page - 1) * limit
  let endIndex := startIndex + limit
  jsSlice array startIndex endIndex

/-- Environment of one `ApiService` call: the values the source draws from
`Date.now()`, `new Date().toISOString()` and `Math.random()`. -/
structure ApiEnv where
  nowMs : Int
  nowISO : String
  randStatus : Status
  randRole : Role
  randCreatedAt : String
deriving DecidableEq

/-- The avatar URL builder of `src/lib/utils.ts` (URI-encoding of the name is
abstracted to the name itself). -/
def generateAvatarUrl (name : String) : String :=
  "https://ui-avatars.com/api/?name=" ++ name ++ "&background=3b82f6&color=fff&bold=true"

/-- The outcome of one backing call: the resolved value or the message of the
rejection. -/
inductive ApiResult (α : Type)
  | ok (value : α)
  | fail (msg : String)
deriving DecidableEq

namespace ApiService

/-- `ApiService.enhanceUser` (`src/services/api.ts` lines 29-38): spreads the
input and then overwrites `avatar`, `status`, `role`, `createdAt`, `updatedAt`
with freshly generated values, the first four of them random. -/
def enhanceUser (env : ApiEnv) (user : User) : User :=
  { user with
    avatar := some (generateAvatarUrl user.name),
    status := some env.randStatus,
    role := some env.randRole,
    createdAt := some env.randCreatedAt,
    updatedAt := some env.nowISO }

/-- `ApiService.createUser` (lines 76-114): posts the form payload (transport
abstracted; `response` is the parsed JSON the fetch resolves with) and returns
`enhanceUser({...response, id: Date.now(), role: userData.role || 'user',
status: userData.status || 'active'})`. -/
def createUser (env : ApiEnv) (userData : UserFormData) (response : User) : User :=
  enhanceUser env
    { response with
      id := env.nowMs,
      role := some (userData.role.getD Role.user),
      status := some (userData.status.getD Status.active) }

/-- `ApiService.updateUser` (lines 117-156): puts the form payload and returns
`enhanceUser({...response, role: userData.role, status: userData.status,
updatedAt: new Date().toISOString()})`. -/
def updateUser (env : ApiEnv) (id : Int) (userData : UserFormData) (response : User) : User :=
  enhanceUser env
    { response with
      role := userData.role,
      status := userData.status,
      updatedAt := some env.nowISO }

/-- The outcome of `ApiService.deleteUsers(ids)` (lines 170-179): a
`Promise.all` over the individual deletes, so the bulk call rejects exactly
when the delete of at least one of the ids rejects, with the message the
`catch` block substitutes. `failing` is the set of ids whose individual
DELETE rejects. -/
def deleteUsersResult (ids failing : List Int) : ApiResult Unit :=
  if ids.any (fun id => failing.contains id) then
    ApiResult.fail "Failed to delete selected users"
  else
    ApiResult.ok ()

end ApiService

/-- Result of a create/update mutation of the `useUsers` hook. `preCallStore`
is the store contents at the moment the backing call is awaited (equal to
`finalStore` when the operation aborts before the call); `returned` is the
value the hook returns to its caller (`null` on failure); `toastError` is the
message passed to the toast error callback, if any; `errorAfter` is the
hook's `error` state after the operation, given its value `error0` before. -/
structure MutationResult where
  preCallStore : List User
  apiCalled : Bool
  finalStore : List User
  returned : Option User
  toastError : Option String
  errorAfter : Option String
deriving DecidableEq

/-- Result of a delete mutation of the hook; `ok` is the returned boolean. -/
structure DeleteResult where
  preCallStore : List User
  apiCalled : Bool
  finalStore : List User
  ok : Bool
  toastError : Option String
  errorAfter : Option String
deriving DecidableEq

/-- Result of `fetchUsers`. -/
structure FetchResult where
  finalStore : List User
  errorAfter : Option String
  toastError : Option String
deriving DecidableEq

namespace UseUsers

/-- The optimistic record built by `updateUser` of the hook
(`src/hooks/useUsers.ts` lines 137-143): `{...oldUser, ...userData,
address: {...oldUser.address, ...userData.address},
company: {...oldUser.company, ...userData.company},
updatedAt: new Date().toISOString()}`. -/
def mergeFormData (oldUser : User) (d : UserFormData) (nowISO : String) : User :=
  { oldUser with
    name := d.name,
    username := d.username,
    email := d.email,
    phone := d.phone,
    website := d.website,
    role := d.role,
    status := d.status,
    jobTitle := d.jobTitle,
    salary := d.salary,
    hasSalary := d.hasSalary,
    address := { oldUser.address with
      street := d.address.street, city := d.address.city, zipcode := d.address.zipcode },
    company := { oldUser.company with name := d.company.name },
    updatedAt := some nowISO }

/-- `createUser` of the hook (lines 107-125): awaits the backing call first
(the store is untouched while the call is pending), then prepends the
returned record; on failure it shows a toast and returns `null`, leaving
the store and the `error` state unchanged. -/
def createUser (store : List User) (error0 : Option String)
    (api : ApiResult User) : MutationResult :=
  match api with
  | .ok newUser =>
    { preCallStore := store, apiCalled := true, finalStore := newUser :: store,
      returned := some newUser, toastError := none, errorAfter := error0 }
  | .fail msg =>
    { preCallStore := store, apiCalled := true, finalStore := store,
      returned := none, toastError := some msg, errorAfter := error0 }

/-- `updateUser` of the hook (lines 128-167): fails fast with `User not
found` when the id is absent; otherwise applies the optimistic merge, awaits
the backing call, and on success replaces the optimistic entry with the
returned record, on failure maps the target id back to the saved `oldUser`. -/
def updateUser (store : List User) (error0 : Option String) (id : Int)
    (userData : UserFormData) (nowISO : String) (api : ApiResult User) : MutationResult :=
  match store.find? (fun u => u.id == id) with
  | none =>
    { preCallStore := store, apiCalled := false, finalStore := store,
      returned := none, toastError := some "User not found", errorAfter := error0 }
  | some oldUser =>
    let optimisticUser := mergeFormData oldUser userData nowISO
    let s1 := store.map (fun u => if u.id == id then optimisticUser else u)
    match api with
    | .ok updatedUser =>
      { preCallStore := s1, apiCalled := true,
        finalStore := s1.map (fun u => if u.id == id then updatedUser else u),
        returned := some updatedUser, toastError := none, errorAfter := error0 }
    | .fail msg =>
      { preCallStore := s1, apiCalled := true,
        finalStore := s1.map (fun u => if u.id == id then oldUser else u),
        returned := none, toastError := some msg, errorAfter := error0 }

/-- `deleteUser` of the hook (lines 170-197): fails fast with `User not
found` when the id is absent; otherwise filters the id out, awaits the
backing call, and on failure rolls back with `[...prev, userToDelete]` -
appending the saved record at the end. -/
def deleteUser (store : List User) (error0 : Option String) (id : Int)
    (api : ApiResult Unit) : DeleteResult :=
  match store.find? (fun u => u.id == id) with
  | none =>
    { preCallStore := store, apiCalled := false, finalStore := store,
      ok := false, toastError := some "User not found", errorAfter := error0 }
  | some userToDelete =>
    let s1 := store.filter (fun u => !(u.id == id))
    match api with
    | .ok _ =>
      { preCallStore := s1, apiCalled := true, finalStore := s1,
        ok := true, toastError := none, errorAfter := error0 }
    | .fail msg =>
      { preCallStore := s1, apiCalled := true, finalStore := s1 ++ [userToDelete],
        ok := false, toastError := some msg, errorAfter := error0 }

/-- `deleteUsers` of the hook (lines 200-226): saves the targeted records,
filters every targeted id out (no existence check of any kind), awaits the
bulk backing call, and on failure rolls back with
`[...prev, ...usersToDelete]`. -/
def deleteUsers (store : List User) (error0 : Option String) (ids : List Int)
    (api : ApiResult Unit) : DeleteResult :=
  let usersToDelete := store.filter (fun u => ids.contains u.id)
  let s1 := store.filter (fun u => !(ids.contains u.id))
  match api with
  | .ok _ =>
    { preCallStore := s1, apiCalled := true, finalStore := s1,
      ok := true, toastError := none, errorAfter := error0 }
  | .fail msg =>
    { preCallStore := s1, apiCalled := true, finalStore := s1 ++ usersToDelete,
      ok := false, toastError := some msg, errorAfter := error0 }

/-- `fetchUsers` of the hook (lines 71-85): clears `error`, replaces the
whole store on success; on failure keeps the store and sets `error` to the
message (this is the only operation of the hook that sets `error`). -/
def fetchUsers (store : List User) (api : ApiResult (List User)) : FetchResult :=
  match api with
  | .ok data => { finalStore := data, errorAfter := none, toastError := none }
  | .fail msg => { finalStore := store, errorAfter := some msg, toastError := some msg }

end UseUsers

/-- The pagination/filter state of the hook: `currentPage`, `itemsPerPage`
and the current `filters`. -/
structure PageState where
  currentPage : Int
  itemsPerPage : Int
  filters : UserFilters
deriving DecidableEq

/-- The `defaultFilters` constant of `src/hooks/useUsers.ts`. -/
def defaultFilters : UserFilters :=
  { search := some "", role := some "all", status := some "all",
    sortBy := some UserKey.name, sortOrder := some SortOrder.asc }

/-- Field-wise merge `{...prev, ...patch}` of two partial filter objects: a
field present in the patch wins. -/
def mergeFilters (prev patch : UserFilters) : UserFilters :=
  { search := patch.search <|> prev.search,
    role := patch.role <|> prev.role,
    status := patch.status <|> prev.status,
    hasSalary := patch.hasSalary <|> prev.hasSalary,
    salaryMin := patch.salaryMin <|> prev.salaryMin,
    salaryMax := patch.salaryMax <|> prev.salaryMax,
    company := patch.company <|> prev.company,
    jobTitle := patch.jobTitle <|> prev.jobTitle,
    city := patch.city <|> prev.city,
    createdAfter := patch.createdAfter <|> prev.createdAfter,
    createdBefore := patch.createdBefore <|> prev.createdBefore,
    sortBy := patch.sortBy <|> prev.sortBy,
    sortOrder := patch.sortOrder <|> prev.sortOrder }

/-- `setPage` (lines 235-237): sets the page and nothing else. -/
def setPage (s : PageState) (page : Int) : PageState :=
  { s with currentPage := page }

/-- `setLimit` (lines 239-242): sets the page size and resets the page to 1. -/
def setLimit (s : PageState) (limit : Int) : PageState :=
  { s with itemsPerPage := limit, currentPage := 1 }

/-- `setFilters` (lines 245-248): merges the patch into the filters and
resets the page to 1. -/
def setFilters (s : PageState) (newFilters : UserFilters) : PageState :=
  { s with filters := mergeFilters s.filters newFilters, currentPage := 1 }

/-- `resetFilters` (lines 250-253): restores `defaultFilters` and resets the
page to 1. -/
def resetFilters (s : PageState) : PageState :=
  { s with filters := defaultFilters, currentPage := 1 }

/-- `searchUsers` (lines 229-232): sets the search string and resets the page
to 1. -/
def searchUsers (s : PageState) (query : String) : PageState :=
  { s with filters := { s.filters with search := some query }, currentPage := 1 }

/-- The passes of `applyFilters` as an explicit list of (activation, predicate)
pairs, in source order; `applyFilters` is definitionally the left fold of
`maybeFilter` over this list (see `applyFilters_eq_foldl`). -/
def filterStages (f : UserFilters) : List (Bool × (User → Bool)) :=
  [(truthyS f.search, searchPred ((f.search.getD "").toLower)),
   (truthyS f.role && (f.role.getD "" != "all"), fun u => roleOptStr u.role == f.role),
   (truthyS f.status && (f.status.getD "" != "all"), fun u => statusOptStr u.status == f.status),
   (truthyS f.hasSalary && (f.hasSalary.getD "" != "all") && (f.hasSalary.getD "" == "yes"),
     fun u => u.hasSalary),
   (truthyS f.hasSalary && (f.hasSalary.getD "" != "all") && (f.hasSalary.getD "" == "no"),
     fun u => !u.hasSalary),
   (f.salaryMin.isSome, fun u => u.hasSalary && decide (f.salaryMin.getD 0 ≤ u.salary)),
   (f.salaryMax.isSome, fun u => u.hasSalary && decide (u.salary ≤ f.salaryMax.getD 0)),
   (truthyS f.company && ((f.company.getD "").trim != ""),
     fun u => strIncludes u.company.name.toLower ((f.company.getD "").toLower)),
   (truthyS f.jobTitle && ((f.jobTitle.getD "").trim != ""),
     fun u => strIncludes u.jobTitle.toLower ((f.jobTitle.getD "").toLower)),
   (truthyS f.city && ((f.city.getD "").trim != ""),
     fun u => strIncludes u.address.city.toLower ((f.city.getD "").toLower)),
   (truthyS f.createdAfter && ((f.createdAfter.getD "").trim != ""),
     createdAfterPred (f.createdAfter.getD "")),
   (truthyS f.createdBefore && ((f.createdBefore.getD "").trim != ""),
     createdBeforePred (f.createdBefore.getD ""))]

/-- The sort keys whose `getNestedValue` is defined (never `undefined`) on
every record: the non-optional scalar fields of `interface User`. For these
the sort comparison is a total preorder; for the optional fields (`avatar`,
`status`, `role`, `createdAt`, `updatedAt`) a record may yield `undefined`,
which the comparator treats as tying with everything while never returning 0,
making it inconsistent. -/
def keyAlwaysDefined : UserKey → Bool
  | .id | .name | .username | .email | .phone | .website
  | .jobTitle | .salary | .hasSalary => true
  | _ => false

/-- The kind of value a defined key always produces. -/
def keyKind : UserKey → UKind
  | .id => .kint
  | .salary => .kint
  | .hasSalary => .kbool
  | .address => .kobj
  | .company => .kobj
  | _ => .kstr

/-- Concrete sample address used by the witnesses and counterexamples. -/
def sampleAddress : Address :=
  { street := "", suite := "", city := "", zipcode := "", geo := { lat := "", lng := "" } }

/-- Concrete sample company. -/
def sampleCompany : Company :=
  { name := "", catchPhrase := "", bs := "" }

/-- A concrete record with a given id and role, all other fields neutral. -/
def mkUser (id : Int) (role : Option Role) : User :=
  { id := id, name := "", username := "", email := "", phone := "", website := "",
    address := sampleAddress, company := sampleCompany,
    role := role, jobTitle := "", salary := 0, hasSalary := false }

/-- A concrete form payload. -/
def sampleForm : UserFormData :=
  { name := "n", username := "un", email := "e", phone := "p", website := "w",
    company := { name := "c" }, address := { street := "st", city := "ci", zipcode := "z" },
    jobTitle := "jt", salary := 1, hasSalary := true }

/-- Criteria that only sort, ascending by `role` (an optional field). -/
def roleSortFilters : UserFilters :=
  { sortBy := some UserKey.role, sortOrder := some SortOrder.asc }

/-- Criteria that only sort, ascending by `name` (an always-defined field). -/
def nameSortFilters : UserFilters :=
  { sortBy := some UserKey.name, sortOrder := some SortOrder.asc }

/-- Six records whose roles are manager, admin, admin, admin, undefined,
admin: sorting them by `role` exercises the inconsistent comparison with
`undefined`. -/
def users6 : List User :=
  [mkUser 0 (some Role.manager), mkUser 1 (some Role.admin), mkUser 2 (some Role.admin),
   mkUser 3 (some Role.admin), mkUser 4 none, mkUser 5 (some Role.admin)]

/-- The six records above followed by six more admins (ids 6..11). -/
def users12 : List User :=
  users6 ++
  [mkUser 6 (some Role.admin), mkUser 7 (some Role.admin), mkUser 8 (some Role.admin),
   mkUser 9 (some Role.admin), mkUser 10 (some Role.admin), mkUser 11 (some Role.admin)]

/-- A concrete environment for the `ApiService` calls. -/
def sampleEnv : ApiEnv :=
  { nowMs := 999, nowISO := "2024-06-02T00:00:00.000Z",
    randStatus := Status.active, randRole := Role.user,
    randCreatedAt := "2024-06-01T12:00:00.000Z" }

/-- An existing record created in 2020, for the created-at immutability check. -/
def oldRecord : User :=
  { mkUser 1 (some Role.admin) with
    createdAt := some "2020-01-01T00:00:00.000Z",
    updatedAt := some "2020-01-02T00:00:00.000Z" }

/-- The parsed JSON a PUT/POST fetch resolves with, for the sample calls. -/
def sampleResponse : User := mkUser 1 none

/-- Fuel-driven structural clone of `List.merge`, used so that closed sort
computations reduce inside the kernel (the library `merge` is defined by
well-founded recursion). With enough fuel it coincides with `List.merge`. -/
def mergeFuel {α : Type} (le : α → α → Bool) : Nat → List α → List α → List α
  | _, [], ys => ys
  | _, xs, [] => xs
  | 0, xs, ys => xs ++ ys
  | fuel+1, x :: xs, y :: ys =>
    if le x y then
      x :: mergeFuel le fuel xs (y :: ys)
    else
      y :: mergeFuel le fuel (x :: xs) ys

/-- Fuel-driven structural clone of `List.mergeSort` (same contiguous split,
same merge); with fuel at least the length it coincides with
`List.mergeSort`. -/
def msortFuel {α : Type} (le : α → α → Bool) : Nat → List α → List α
  | _, [] => []
  | _, [a] => [a]
  | 0, l => l
  | fuel+1, a :: b :: xs =>
    mergeFuel le (fuel + 1)
      (msortFuel le fuel ((a :: b :: xs).take ((xs.length + 2 + 1) / 2)))
      (msortFuel le fuel ((a :: b :: xs).drop ((xs.length + 2 + 1) / 2)))

theorem mergeFuel_eq {α : Type} (le : α → α → Bool) :
    ∀ (fuel : Nat) (xs ys : List α), xs.length + ys.length ≤ fuel →
      mergeFuel le fuel xs ys = List.merge xs ys le := by
  intro fuel
  induction fuel with
  | zero =>
    intro xs ys h
    cases xs with
    | nil => simp [mergeFuel]
    | cons x xs =>
      cases ys with
      | nil => simp [mergeFuel]
      | cons y ys => simp at h
  | succ n ih =>
    intro xs ys h
    cases xs with
    | nil => simp [mergeFuel]
    | cons x xs =>
      cases ys with
      | nil => simp [mergeFuel]
      | cons y ys =>
        rw [List.cons_merge_cons]
        simp only [mergeFuel]
        cases hxy : le x y
        · simp only [hxy, Bool.false_eq_true, if_false]
          congr 1
          apply ih
          simp at h ⊢
          omega
        · simp only [hxy, if_true]
          congr 1
          apply ih
          simp at h ⊢
          omega

theorem msortFuel_eq {α : Type} (le : α → α → Bool) :
    ∀ (fuel : Nat) (l : List α), l.length ≤ fuel →
      msortFuel le fuel l = l.mergeSort le := by
  intro fuel
  induction fuel with
  | zero =>
    intro l h
    cases l with
    | nil => simp [msortFuel]
    | cons a t =>
      cases t with
      | nil => simp [msortFuel]
      | cons b xs => simp at h
  | succ n ih =>
    intro l h
    cases l with
    | nil => simp [msortFuel]
    | cons a t =>
      cases t with
      | nil => simp [msortFuel]
      | cons b xs =>
        rw [List.mergeSort]
        simp only [msortFuel, List.splitInTwo_fst, List.splitInTwo_snd]
        have hlen : (a :: b :: xs).length = xs.length + 2 := by simp
        rw [ih _ (by simp [List.length_take]; omega),
            ih _ (by simp [List.length_drop]; omega),
            mergeFuel_eq le _ _ _ (by
              simp [List.length_mergeSort, List.length_take, List.length_drop]
              omega)]
        rw [hlen]

theorem maybeFilter_sublist (active : Bool) (p : User → Bool) (l : List User) :
    List.Sublist (maybeFilter active p l) l := by
  unfold maybeFilter
  split
  · exact List.filter_sublist l
  · exact List.Sublist.refl l

theorem mem_maybeFilter_keep {active : Bool} {p : User → Bool} {l : List User} {u : User}
    (hm : u ∈ maybeFilter active p l) (ha : active = true) : p u = true := by
  subst ha
  simp only [maybeFilter, if_true] at hm
  exact (List.mem_filter.mp hm).2

theorem maybeFilter_eq_self {active : Bool} {p : User → Bool} {l : List User}
    (h : ∀ u ∈ l, active = true → p u = true) : maybeFilter active p l = l := by
  cases active with
  | false => rfl
  | true =>
    simp only [maybeFilter, if_true]
    exact List.filter_eq_self.mpr (fun u hu => h u hu rfl)

theorem foldlFilter_sublist (ss : List (Bool × (User → Bool))) :
    ∀ (l : List User), List.Sublist (ss.foldl (fun acc s => maybeFilter s.1 s.2 acc) l) l := by
  induction ss with
  | nil => intro l; exact List.Sublist.refl l
  | cons s ss ih =>
    intro l
    exact (ih (maybeFilter s.1 s.2 l)).trans (maybeFilter_sublist s.1 s.2 l)

theorem mem_foldlFilter_keep (ss : List (Bool × (User → Bool))) :
    ∀ (l : List User) (u : User),
      u ∈ ss.foldl (fun acc s => maybeFilter s.1 s.2 acc) l →
      ∀ s ∈ ss, s.1 = true → s.2 u = true := by
  induction ss with
  | nil =>
    intro l u _ s hs
    simp at hs
  | cons s0 ss ih =>
    intro l u hu s hs
    rcases List.mem_cons.mp hs with rfl | hs'
    · intro h1
      have hm : u ∈ maybeFilter s.1 s.2 l :=
        (foldlFilter_sublist ss (maybeFilter s.1 s.2 l)).subset hu
      exact mem_maybeFilter_keep hm h1
    · exact ih (maybeFilter s0.1 s0.2 l) u hu s hs'

theorem foldlFilter_eq_self (ss : List (Bool × (User → Bool))) :
    ∀ (l : List User),
      (∀ s ∈ ss, ∀ u ∈ l, s.1 = true → s.2 u = true) →
      ss.foldl (fun acc s => maybeFilter s.1 s.2 acc) l = l := by
  induction ss with
  | nil => intro l _; rfl
  | cons s0 ss ih =>
    intro l h
    have h0 : maybeFilter s0.1 s0.2 l = l :=
      maybeFilter_eq_self (fun u hu => h s0 (List.mem_cons_self s0 ss) u hu)
    show List.foldl _ (maybeFilter s0.1 s0.2 l) ss = l
    rw [h0]
    exact ih l (fun s hs u hu => h s (List.mem_cons_of_mem s0 hs) u hu)

theorem applyFilters_eq_foldl (users : List User) (f : UserFilters) :
    applyFilters users f =
      (filterStages f).foldl (fun acc s => maybeFilter s.1 s.2 acc) users := rfl

theorem applyFilters_sublist (users : List User) (f : UserFilters) :
    List.Sublist (applyFilters users f) users := by
  rw [applyFilters_eq_foldl]
  exact foldlFilter_sublist (filterStages f) users

theorem filterUsers_eq_msortFuel (users : List User) (f : UserFilters) (key : UserKey)
    (hkey : f.sortBy = some key) (fuel : Nat) (hfuel : users.length ≤ fuel) :
    filterUsers users f =
      msortFuel (fun a b => sortLE f key a b) fuel (applyFilters users f) := by
  have h := msortFuel_eq (fun a b => sortLE f key a b) fuel (applyFilters users f)
    (le_trans (List.Sublist.length_le (applyFilters_sublist users f)) hfuel)
  simp only [filterUsers, hkey, h]


theorem strLtB_irrefl : ∀ (l : List Char), strLtB l l = false
  | [] => rfl
  | a :: as => by simp [strLtB, strLtB_irrefl as]

theorem strLtB_asymm : ∀ (x y : List Char), strLtB x y = true → strLtB y x = false
  | [], [], h => by simp [strLtB] at h
  | [], _ :: _, _ => rfl
  | _ :: _, [], h => by simp [strLtB] at h
  | a :: as, b :: bs, h => by
    simp only [strLtB] at h ⊢
    by_cases h1 : a.toNat < b.toNat
    · rw [if_neg (by omega), if_pos h1]
    · by_cases h2 : b.toNat < a.toNat
      · rw [if_neg h1, if_pos h2] at h
        simp at h
      · rw [if_neg h1, if_neg h2] at h
        rw [if_neg h2, if_neg h1]
        exact strLtB_asymm as bs h

theorem strLtB_notLt_trans : ∀ (x y z : List Char),
    strLtB x y = false → strLtB y z = false → strLtB x z = false
  | [], [], _, _, h2 => h2
  | [], _ :: _, _, h1, _ => by simp [strLtB] at h1
  | _ :: _, _, [], _, _ => rfl
  | _ :: _, [], _ :: _, _, h2 => by simp [strLtB] at h2
  | a :: as, b :: bs, c :: cs, h1, h2 => by
    simp only [strLtB] at h1 h2 ⊢
    by_cases hab : a.toNat < b.toNat
    · rw [if_pos hab] at h1
      simp at h1
    · by_cases hbc : b.toNat < c.toNat
      · rw [if_pos hbc] at h2
        simp at h2
      · rw [if_neg (by omega : ¬ a.toNat < c.toNat)]
        by_cases hca : c.toNat < a.toNat
        · rw [if_pos hca]
        · have hac : a.toNat = c.toNat := by omega
          have hba : ¬ b.toNat < a.toNat := by omega
          have hcb : ¬ c.toNat < b.toNat := by omega
          rw [if_neg hca]
          rw [if_neg hab, if_neg hba] at h1
          rw [if_neg hbc, if_neg hcb] at h2
          exact strLtB_notLt_trans as bs cs h1 h2

theorem UVal.jsGt_irrefl (v : UVal) : UVal.jsGt v v = false := by
  cases v <;> simp [UVal.jsGt, strLtB_irrefl]

theorem UVal.jsGt_total (x y : UVal) : UVal.jsGt x y = false ∨ UVal.jsGt y x = false := by
  cases x <;> cases y <;> simp [UVal.jsGt]
  · rename_i a b
    by_cases h : strLtB b.data a.data = true
    · exact Or.inr (strLtB_asymm _ _ h)
    · exact Or.inl (by simpa using h)
  · omega
  · rename_i a b
    cases a <;> cases b <;> simp

theorem UVal.notGt_trans {x y z : UVal} (hxy : x.kind = y.kind) (hyz : y.kind = z.kind)
    (hk : x.kind = UKind.kstr ∨ x.kind = UKind.kint ∨ x.kind = UKind.kbool)
    (h1 : UVal.jsGt x y = false) (h2 : UVal.jsGt y z = false) :
    UVal.jsGt x z = false := by
  cases x <;> cases y <;> cases z <;>
    simp_all [UVal.jsGt, UVal.kind] <;>
    first
      | exact strLtB_notLt_trans _ _ _ h2 h1
      | omega

theorem getNestedValue_kind (key : UserKey) (hdef : keyAlwaysDefined key = true) (u : User) :
    (getNestedValue u key).kind = keyKind key := by
  cases key <;> first
    | rfl
    | simp [keyAlwaysDefined] at hdef

theorem keyKind_primitive (key : UserKey) (hdef : keyAlwaysDefined key = true) :
    keyKind key = UKind.kstr ∨ keyKind key = UKind.kint ∨ keyKind key = UKind.kbool := by
  cases key <;> first
    | exact Or.inl rfl
    | exact Or.inr (Or.inl rfl)
    | exact Or.inr (Or.inr rfl)
    | simp [keyAlwaysDefined] at hdef

theorem sortLE_char (f : UserFilters) (key : UserKey) (a b : User) :
    sortLE f key a b =
      if f.sortOrder == some SortOrder.desc then
        !(UVal.jsGt (getNestedValue b key) (getNestedValue a key))
      else
        !(UVal.jsGt (getNestedValue a key) (getNestedValue b key)) := by
  unfold sortLE sortCompare
  by_cases hd : (f.sortOrder == some SortOrder.desc) = true
  · simp only [hd, if_true]
    cases hgt : UVal.jsGt (getNestedValue b key) (getNestedValue a key) <;> simp [hgt]
  · simp only [Bool.not_eq_true] at hd
    simp only [hd, Bool.false_eq_true, if_false]
    cases hgt : UVal.jsGt (getNestedValue a key) (getNestedValue b key) <;> simp [hgt]

theorem sortLE_total (f : UserFilters) (key : UserKey) (a b : User) :
    (sortLE f key a b || sortLE f key b a) = true := by
  rw [sortLE_char, sortLE_char]
  rcases UVal.jsGt_total (getNestedValue a key) (getNestedValue b key) with h | h <;>
    by_cases hd : (f.sortOrder == some SortOrder.desc) = true <;>
      simp_all

theorem sortLE_trans (f : UserFilters) (key : UserKey) (hdef : keyAlwaysDefined key = true)
    (a b c : User) (h1 : sortLE f key a b = true) (h2 : sortLE f key b c = true) :
    sortLE f key a c = true := by
  have ka := getNestedValue_kind key hdef a
  have kb := getNestedValue_kind key hdef b
  have kc := getNestedValue_kind key hdef c
  have kp := keyKind_primitive key hdef
  rw [sortLE_char] at h1 h2 ⊢
  by_cases hd : (f.sortOrder == some SortOrder.desc) = true
  · simp only [hd, if_true, Bool.not_eq_true'] at h1 h2 ⊢
    exact UVal.notGt_trans (kc.trans kb.symm) (kb.trans ka.symm)
      (by rw [kc]; exact kp) h2 h1
  · simp only [Bool.not_eq_true] at hd
    simp only [hd, Bool.false_eq_true, if_false, Bool.not_eq_true'] at h1 h2 ⊢
    exact UVal.notGt_trans (ka.trans kb.symm) (kb.trans kc.symm)
      (by rw [ka]; exact kp) h1 h2

theorem uniqueId_eq {store : List User} (huniq : store.Pairwise (fun a b => a.id ≠ b.id))
    {u v : User} (hu : u ∈ store) (hv : v ∈ store) (h : u.id = v.id) : u = v := by
  induction store with
  | nil => cases hu
  | cons a t ih =>
    rcases List.pairwise_cons.mp huniq with ⟨ha, ht⟩
    rcases List.mem_cons.mp hu with rfl | hu' <;> rcases List.mem_cons.mp hv with rfl | hv'
    · rfl
    · exact absurd h (ha v hv')
    · exact absurd h.symm (ha u hu')
    · exact ih ht hu' hv'

theorem find?_id_filter_single {store : List User} {uid : Int} {w : User}
    (hfind : store.find? (fun u => u.id == uid) = some w)
    (huniq : store.Pairwise (fun a b => a.id ≠ b.id)) :
    store.filter (fun u => u.id == uid) = [w] := by
  induction store with
  | nil => simp at hfind
  | cons a t ih =>
    rcases List.pairwise_cons.mp huniq with ⟨ha, ht⟩
    by_cases hid : (a.id == uid) = true
    · rw [@List.find?_cons_of_pos User (fun u => u.id == uid) a t hid] at hfind
      have hw : a = w := by simpa using hfind
      subst hw
      rw [@List.filter_cons_of_pos User (fun u => u.id == uid) a t hid]
      have ht0 : t.filter (fun u => u.id == uid) = [] := by
        apply List.filter_eq_nil_iff.mpr
        intro u hu
        have := ha u hu
        simp only [beq_iff_eq] at hid ⊢
        omega
      rw [ht0]
    · rw [@List.find?_cons_of_neg User (fun u => u.id == uid) a t hid] at hfind
      rw [@List.filter_cons_of_neg User (fun u => u.id == uid) a t hid]
      exact ih hfind ht

theorem rollback_map_map {store : List User} {uid : Int} {oldUser : User} (v : User)
    (hfind : store.find? (fun u => u.id == uid) = some oldUser)
    (huniq : store.Pairwise (fun a b => a.id ≠ b.id))
    (hv : v.id = oldUser.id) :
    (store.map (fun u => if u.id == uid then v else u)).map
      (fun u => if u.id == uid then oldUser else u) = store := by
  rw [List.map_map]
  have hid : (oldUser.id == uid) = true :=
    @List.find?_some User (fun u => u.id == uid) oldUser store hfind
  have hmem : oldUser ∈ store := List.mem_of_find?_eq_some hfind
  have hpt : ∀ u ∈ store,
      ((fun u => if u.id == uid then oldUser else u) ∘
        (fun u => if u.id == uid then v else u)) u = id u := by
    intro u hu
    simp only [Function.comp_apply, id_eq]
    by_cases h : (u.id == uid) = true
    · rw [if_pos h]
      have hvid : (v.id == uid) = true := by
        rw [beq_iff_eq] at hid ⊢
        rw [hv, hid]
      rw [if_pos hvid]
      refine (uniqueId_eq huniq hu hmem ?_).symm
      rw [beq_iff_eq] at h hid
      rw [h, hid]
    · rw [if_neg h, if_neg h]
  rw [List.map_congr_left hpt, List.map_id]

/-- C1, counterexample to the claim as stated: with the two-record store
[user 1, user 2], a single delete of id 1 whose backing call fails leaves the
store as [user 2, user 1] - the same records, but not the exact pre-mutation
snapshot, because the rollback re-appends the deleted record at the end. -/
theorem c1_counterexample :
    (UseUsers.deleteUser [mkUser 1 none, mkUser 2 none] none 1
      (ApiResult.fail "boom")).finalStore ≠ [mkUser 1 none, mkUser 2 none] := by
  decide

/-- C1 (amended): after a failed mutation on a store with pairwise distinct
ids, a failed update restores the exact pre-mutation snapshot, while a failed
single delete and a failed bulk delete restore the same records only up to
permutation (the non-targeted records keep their order and the targeted
records are re-appended at the end). -/
theorem c1_rollback (store : List User) (uid : Int) (ids : List Int)
    (userData : UserFormData) (nowISO msg : String) (e0 : Option String)
    (huniq : store.Pairwise (fun a b => a.id ≠ b.id)) :
    (UseUsers.updateUser store e0 uid userData nowISO (ApiResult.fail msg)).finalStore = store ∧
    (UseUsers.deleteUser store e0 uid (ApiResult.fail msg)).finalStore.Perm store ∧
    (UseUsers.deleteUsers store e0 ids (ApiResult.fail msg)).finalStore.Perm store := by
  refine ⟨?_, ?_, ?_⟩
  · unfold UseUsers.updateUser
    cases hfind : store.find? (fun u => u.id == uid) with
    | none => rfl
    | some oldUser =>
      simp only []
      exact rollback_map_map (UseUsers.mergeFormData oldUser userData nowISO)
        hfind huniq rfl
  · unfold UseUsers.deleteUser
    cases hfind : store.find? (fun u => u.id == uid) with
    | none => exact List.Perm.refl store
    | some w =>
      simp only []
      have hp := List.filter_append_perm (fun u => !(u.id == uid)) store
      have hc : store.filter (fun u => !!(u.id == uid)) =
          store.filter (fun u => u.id == uid) :=
        List.filter_congr (fun u _ => by simp)
      rw [hc, find?_id_filter_single hfind huniq] at hp
      exact hp
  · unfold UseUsers.deleteUsers
    simp only []
    have hp := List.filter_append_perm (fun u => !(ids.contains u.id)) store
    have hc : store.filter (fun u => !!(ids.contains u.id)) =
        store.filter (fun u => ids.contains u.id) :=
      List.filter_congr (fun u _ => by simp)
    rw [hc] at hp
    exact hp

/-- C1 witness: the amended rollback theorem applied at a concrete two-record
store with distinct ids. -/
theorem c1_witness :
    (UseUsers.updateUser [mkUser 1 none, mkUser 2 none] none 1 sampleForm
      "t" (ApiResult.fail "boom")).finalStore = [mkUser 1 none, mkUser 2 none] ∧
    (UseUsers.deleteUser [mkUser 1 none, mkUser 2 none] none 1
      (ApiResult.fail "boom")).finalStore.Perm [mkUser 1 none, mkUser 2 none] ∧
    (UseUsers.deleteUsers [mkUser 1 none, mkUser 2 none] none [1, 2]
      (ApiResult.fail "boom")).finalStore.Perm [mkUser 1 none, mkUser 2 none] :=
  c1_rollback [mkUser 1 none, mkUser 2 none] 1 [1, 2] sampleForm "t" "boom" none
    (by decide)

/-- C2: bulk delete is atomic from the caller's perspective. When no targeted
id is in the failing set, the bulk backing call resolves, the hook reports
success and the final store is exactly the store with every targeted id
filtered out (so no targeted id remains). When some targeted id fails, the
backing call rejects as a whole, the hook reports failure and the final store
is a permutation of the full pre-mutation store - every record, targeted or
not, is back; never a partial state. -/
theorem c2_bulk_delete_atomic (store : List User) (ids failing : List Int)
    (e0 : Option String) :
    (ids.any (fun i => failing.contains i) = false →
      (UseUsers.deleteUsers store e0 ids (ApiService.deleteUsersResult ids failing)).ok = true ∧
      (UseUsers.deleteUsers store e0 ids (ApiService.deleteUsersResult ids failing)).finalStore =
        store.filter (fun u => !(ids.contains u.id)) ∧
      ∀ u ∈ (UseUsers.deleteUsers store e0 ids
          (ApiService.deleteUsersResult ids failing)).finalStore,
        ids.contains u.id = false) ∧
    (ids.any (fun i => failing.contains i) = true →
      (UseUsers.deleteUsers store e0 ids (ApiService.deleteUsersResult ids failing)).ok = false ∧
      (UseUsers.deleteUsers store e0 ids
          (ApiService.deleteUsersResult ids failing)).finalStore.Perm store) := by
  constructor
  · intro hok
    have hred : ApiService.deleteUsersResult ids failing = ApiResult.ok () := by
      unfold ApiService.deleteUsersResult
      rw [hok]
      rfl
    rw [hred]
    exact ⟨rfl, rfl, fun u hu => by simpa using (List.mem_filter.mp hu).2⟩
  · intro hfail
    have hred : ApiService.deleteUsersResult ids failing =
        ApiResult.fail "Failed to delete selected users" := by
      unfold ApiService.deleteUsersResult
      rw [hfail]
      rfl
    rw [hred]
    refine ⟨rfl, ?_⟩
    show (store.filter (fun u => !(ids.contains u.id)) ++
      store.filter (fun u => ids.contains u.id)).Perm store
    have hp := List.filter_append_perm (fun u => !(ids.contains u.id)) store
    have hc : store.filter (fun u => !!(ids.contains u.id)) =
        store.filter (fun u => ids.contains u.id) :=
      List.filter_congr (fun u _ => by simp)
    rw [hc] at hp
    exact hp

/-- C2 witness: the spec scenario - bulk delete of ids [3,5,9] where the
backing call for id 5 fails: the store is restored to contain records 3, 5
and 9 (a permutation of the snapshot). -/
theorem c2_witness :
    (UseUsers.deleteUsers [mkUser 3 none, mkUser 5 none, mkUser 9 none] none [3, 5, 9]
        (ApiService.deleteUsersResult [3, 5, 9] [5])).ok = false ∧
    (UseUsers.deleteUsers [mkUser 3 none, mkUser 5 none, mkUser 9 none] none [3, 5, 9]
        (ApiService.deleteUsersResult [3, 5, 9] [5])).finalStore.Perm
      [mkUser 3 none, mkUser 5 none, mkUser 9 none] :=
  (c2_bulk_delete_atomic [mkUser 3 none, mkUser 5 none, mkUser 9 none]
    [3, 5, 9] [5] none).2 (by decide)

/-- C3, counterexample to the claim as stated: at the moment the backing call
of a create is issued, the store still equals the pre-mutation store - no
provisional record with a placeholder id was inserted - and the id of the
record that ends up in the store is `Date.now()` (here 999), generated
locally inside `ApiService.createUser`, not a server-assigned id replacing a
placeholder: it stays in the final store. -/
theorem c3_counterexample :
    (UseUsers.createUser [mkUser 1 none] none
      (ApiResult.ok (ApiService.createUser sampleEnv sampleForm sampleResponse))).preCallStore =
      [mkUser 1 none] ∧
    (ApiService.createUser sampleEnv sampleForm sampleResponse).id = 999 ∧
    (UseUsers.createUser [mkUser 1 none] none
      (ApiResult.ok (ApiService.createUser sampleEnv sampleForm sampleResponse))).finalStore =
      ApiService.createUser sampleEnv sampleForm sampleResponse :: [mkUser 1 none] :=
  ⟨rfl, rfl, rfl⟩

/-- C3 (amended): create is not optimistic. The store is unchanged while the
backing call is pending (no provisional record); on success the record built
by `ApiService.createUser` - whose id is the locally generated `Date.now()` -
is prepended, so the store gains exactly one record, and that locally
generated id is the one that appears in the final store. -/
theorem c3_create_not_optimistic (store : List User) (e0 : Option String)
    (env : ApiEnv) (userData : UserFormData) (response : User) :
    (UseUsers.createUser store e0
      (ApiResult.ok (ApiService.createUser env userData response))).preCallStore = store ∧
    (UseUsers.createUser store e0
      (ApiResult.ok (ApiService.createUser env userData response))).finalStore =
      ApiService.createUser env userData response :: store ∧
    (UseUsers.createUser store e0
      (ApiResult.ok (ApiService.createUser env userData response))).finalStore.length =
      store.length + 1 ∧
    (ApiService.createUser env userData response).id = env.nowMs :=
  ⟨rfl, rfl, by simp [UseUsers.createUser], rfl⟩

/-- C4 (amended): when the sort field is one of the always-defined scalar
fields of the record (id, name, username, email, phone, website, jobTitle,
salary, hasSalary), the sort of `filterUsers` is stable: a pair of records
with equal values at the sort field that appears in order in the filtered
list appears in the same order in the sorted output, for ascending and
descending criteria alike - and the descending comparator is exactly the
ascending comparator with its arguments swapped (the comparison is reversed,
not the final array). For the optional fields the comparator, which never
returns 0 and treats `undefined` as tying with everything, is inconsistent
and tie-break stability can fail (see the counterexample). -/
theorem c4_stable_sort_defined_key (users : List User) (f : UserFilters) (key : UserKey)
    (a b : User) (hkey : f.sortBy = some key) (hdef : keyAlwaysDefined key = true)
    (hval : getNestedValue a key = getNestedValue b key)
    (hsub : List.Sublist [a, b] (applyFilters users f)) :
    List.Sublist [a, b] (filterUsers users f) ∧
    sortCompare { f with sortOrder := some SortOrder.desc } key a b =
      sortCompare { f with sortOrder := some SortOrder.asc } key b a := by
  constructor
  · simp only [filterUsers, hkey]
    apply List.pair_sublist_mergeSort
    · exact fun x y z => sortLE_trans f key hdef x y z
    · exact fun x y => sortLE_total f key x y
    · rw [sortLE_char]
      by_cases hd : (f.sortOrder == some SortOrder.desc) = true <;>
        simp [hd, hval, UVal.jsGt_irrefl]
    · exact hsub
  · rfl

/-- C4 witness: two records with equal names, sorted by the always-defined
field `name`, keep their order; the concrete descending comparator equals the
ascending one with swapped arguments. -/
theorem c4_witness :
    List.Sublist [mkUser 1 (some Role.admin), mkUser 2 (some Role.admin)]
      (filterUsers [mkUser 1 (some Role.admin), mkUser 2 (some Role.admin)]
        nameSortFilters) ∧
    sortCompare { nameSortFilters with sortOrder := some SortOrder.desc } UserKey.name
        (mkUser 1 (some Role.admin)) (mkUser 2 (some Role.admin)) =
      sortCompare { nameSortFilters with sortOrder := some SortOrder.asc } UserKey.name
        (mkUser 2 (some Role.admin)) (mkUser 1 (some Role.admin)) :=
  c4_stable_sort_defined_key [mkUser 1 (some Role.admin), mkUser 2 (some Role.admin)]
    nameSortFilters UserKey.name (mkUser 1 (some Role.admin)) (mkUser 2 (some Role.admin))
    rfl rfl rfl (List.Sublist.refl _)

/-- C4, counterexample to the claim as stated: twelve records sorted
ascending by the optional field `role` (one `manager`, one with `role`
undefined, ten `admin`). The records with ids 5 and 6 have equal sort values
(`admin`) and id 5 precedes id 6 in the filtered input, but the sort emits
id 6 before id 5: the comparator, which never returns 0 and compares
`undefined` as greater than nothing, is not a consistent comparator, and
tie-break stability fails. -/
theorem c4_counterexample :
    getNestedValue (mkUser 5 (some Role.admin)) UserKey.role =
      getNestedValue (mkUser 6 (some Role.admin)) UserKey.role ∧
    (applyFilters users12 roleSortFilters).findIdx (fun u => u.id == 5) <
      (applyFilters users12 roleSortFilters).findIdx (fun u => u.id == 6) ∧
    (filterUsers users12 roleSortFilters).findIdx (fun u => u.id == 6) <
      (filterUsers users12 roleSortFilters).findIdx (fun u => u.id == 5) := by
  refine ⟨rfl, by decide, ?_⟩
  rw [filterUsers_eq_msortFuel users12 roleSortFilters UserKey.role rfl 12 (by decide)]
  decide

/-- C5, counterexample to the claim as stated: the paginator does wrap
around for a negative page number - `paginateArray([r1,r2,r3], -1, 1)`
computes `slice(-2, -1)`, whose negative indices count from the end of the
array, and returns `[r2]`, not the empty slice the claim promises for every
page below 1. -/
theorem c5_counterexample :
    paginateArray [mkUser 1 none, mkUser 2 none, mkUser 3 none] (-1) 1 ≠
      ([] : List User) := by
  decide

/-- C5 (amended): the paginator is 1-indexed - page 1 with size s returns the
first s records - and a page at or beyond the last page (1 ≤ p with
|R| ≤ (p-1)·s) yields the empty slice, as does page 0; but a negative page is
not guarded: the negative slice indices count from the end of the array
(wraparound), as the counterexample shows. -/
theorem c5_paginate (l : List User) (p s : Int) (hs : 0 < s) :
    (1 ≤ p → (l.length : Int) ≤ (p - 1) * s → paginateArray l p s = []) ∧
    paginateArray l 0 s = [] ∧
    paginateArray l 1 s = l.take s.toNat := by
  refine ⟨?_, ?_, ?_⟩
  · intro hp hlen
    have h0 : 0 ≤ (p - 1) * s := mul_nonneg (by omega) (by omega)
    simp only [paginateArray, jsSlice]
    rw [if_neg (by omega), if_neg (by omega)]
    have he : (min ((p - 1) * s + s) (l.length : Int) -
        min ((p - 1) * s) (l.length : Int)).toNat = 0 := by
      have h3 : min ((p - 1) * s) (l.length : Int) = (l.length : Int) :=
        min_eq_right hlen
      have h4 : min ((p - 1) * s + s) (l.length : Int) ≤ (l.length : Int) :=
        min_le_right _ _
      omega
    rw [he]
    simp
  · have h1 : ((0 : Int) - 1) * s = -s := by ring
    simp only [paginateArray, jsSlice, h1]
    rw [if_pos (show -s < 0 by omega), if_neg (show ¬ (-s + s < 0) by omega)]
    have he : (min (-s + s) (l.length : Int) - max ((l.length : Int) + -s) 0).toNat = 0 := by
      have h3 : 0 ≤ max ((l.length : Int) + -s) 0 := le_max_right _ _
      have h4 : min (-s + s) (l.length : Int) ≤ -s + s := min_le_left _ _
      omega
    rw [he]
    simp
  · have h1 : ((1 : Int) - 1) * s = 0 := by ring
    simp only [paginateArray, jsSlice, h1]
    rw [if_neg (show ¬ ((0 : Int) < 0) by omega),
        if_neg (show ¬ ((0 : Int) + s < 0) by omega)]
    have h2 : min (0 : Int) (l.length : Int) = 0 := min_eq_left (Int.natCast_nonneg _)
    rw [h2]
    have h3 : (0 : Int) + s = s := by ring
    rw [h3]
    have h4 : ((min s (l.length : Int)) - 0).toNat = min s.toNat l.length := by omega
    rw [h4]
    have h5 : ((0 : Int)).toNat = 0 := rfl
    rw [h5, List.drop_zero]
    apply List.take_eq_take.mpr
    omega

/-- C5 witness: the amended paginator theorem at a one-record store with page
size 5 - page 2 is beyond the last page and empty, page 0 is empty, page 1
returns the record. -/
theorem c5_witness :
    paginateArray [mkUser 1 none] 2 5 = ([] : List User) ∧
    paginateArray [mkUser 1 none] 0 5 = ([] : List User) ∧
    paginateArray [mkUser 1 none] 1 5 = [mkUser 1 none].take (5 : Int).toNat :=
  ⟨(c5_paginate [mkUser 1 none] 2 5 (by decide)).1 (by decide) (by decide),
   (c5_paginate [mkUser 1 none] 0 5 (by decide)).2.1,
   (c5_paginate [mkUser 1 none] 1 5 (by decide)).2.2⟩

/-- C6 (code bug): the created-at timestamp is NOT immutable under a
successful update. `ApiService.updateUser` pipes its response through
`enhanceUser`, which overwrites `createdAt` with a freshly generated random
past date (and `role`/`status` with random values), and the hook stores that
record. Concretely: the record created on 2020-01-01 has, after one
successful update, the environment's freshly drawn `randCreatedAt` as its
created-at - different from the original - while updated-at is refreshed as
the claim says. -/
theorem c6_createdAt_regenerated :
    (UseUsers.updateUser [oldRecord] none 1 sampleForm sampleEnv.nowISO
      (ApiResult.ok (ApiService.updateUser sampleEnv 1 sampleForm sampleResponse))).finalStore =
      [ApiService.updateUser sampleEnv 1 sampleForm sampleResponse] ∧
    (ApiService.updateUser sampleEnv 1 sampleForm sampleResponse).createdAt =
      some sampleEnv.randCreatedAt ∧
    oldRecord.createdAt = some "2020-01-01T00:00:00.000Z" ∧
    (ApiService.updateUser sampleEnv 1 sampleForm sampleResponse).createdAt ≠
      oldRecord.createdAt ∧
    (ApiService.updateUser sampleEnv 1 sampleForm sampleResponse).updatedAt =
      some sampleEnv.nowISO := by
  refine ⟨by decide, rfl, rfl, by decide, rfl⟩

/-- C7, counterexample to the claim as stated: a failed create leaves the
hook's `error` field untouched (here `none`) - the failure is surfaced only
through the toast callback and the `null` return value, not through the
`error` field. -/
theorem c7_counterexample :
    (UseUsers.createUser [] none (ApiResult.fail "boom")).errorAfter = none ∧
    (UseUsers.createUser [] none (ApiResult.fail "boom")).toastError = some "boom" ∧
    (UseUsers.createUser [] none (ApiResult.fail "boom")).returned = none :=
  ⟨rfl, rfl, rfl⟩

/-- C7 (amended): every mutation failure is caught and surfaced to the user
through the toast error callback and to the caller through a null/false
return value, with the store left rolled back (for create, untouched); the
hook's `error` field is left unchanged by every mutation - only a failed
`fetchUsers` sets it. -/
theorem c7_failures_via_toast (store : List User) (e0 : Option String)
    (msg nowISO : String) (uid : Int) (ids : List Int) (userData : UserFormData) :
    ((UseUsers.createUser store e0 (ApiResult.fail msg)).errorAfter = e0 ∧
      (UseUsers.createUser store e0 (ApiResult.fail msg)).toastError = some msg ∧
      (UseUsers.createUser store e0 (ApiResult.fail msg)).returned = none ∧
      (UseUsers.createUser store e0 (ApiResult.fail msg)).finalStore = store) ∧
    ((UseUsers.updateUser store e0 uid userData nowISO (ApiResult.fail msg)).errorAfter = e0 ∧
      (UseUsers.updateUser store e0 uid userData nowISO
        (ApiResult.fail msg)).toastError.isSome = true ∧
      (UseUsers.updateUser store e0 uid userData nowISO (ApiResult.fail msg)).returned = none) ∧
    ((UseUsers.deleteUser store e0 uid (ApiResult.fail msg)).errorAfter = e0 ∧
      (UseUsers.deleteUser store e0 uid (ApiResult.fail msg)).toastError.isSome = true ∧
      (UseUsers.deleteUser store e0 uid (ApiResult.fail msg)).ok = false) ∧
    ((UseUsers.deleteUsers store e0 ids (ApiResult.fail msg)).errorAfter = e0 ∧
      (UseUsers.deleteUsers store e0 ids (ApiResult.fail msg)).toastError = some msg ∧
      (UseUsers.deleteUsers store e0 ids (ApiResult.fail msg)).ok = false) ∧
    (UseUsers.fetchUsers store (ApiResult.fail msg)).errorAfter = some msg := by
  refine ⟨⟨rfl, rfl, rfl, rfl⟩, ?_, ?_, ⟨rfl, rfl, rfl⟩, rfl⟩
  · unfold UseUsers.updateUser
    cases hfind : store.find? (fun u => u.id == uid) with
    | none => exact ⟨rfl, rfl, rfl⟩
    | some oldUser => exact ⟨rfl, rfl, rfl⟩
  · unfold UseUsers.deleteUser
    cases hfind : store.find? (fun u => u.id == uid) with
    | none => exact ⟨rfl, rfl, rfl⟩
    | some w => exact ⟨rfl, rfl, rfl⟩

/-- C8, counterexample to the claim as stated: a bulk delete whose target id
(99) is absent from the store performs no not-found check at all - it issues
the backing call anyway, reports success and shows no error. -/
theorem c8_counterexample :
    (UseUsers.deleteUsers [mkUser 1 none] none [99] (ApiResult.ok ())).apiCalled = true ∧
    (UseUsers.deleteUsers [mkUser 1 none] none [99] (ApiResult.ok ())).ok = true ∧
    (UseUsers.deleteUsers [mkUser 1 none] none [99] (ApiResult.ok ())).toastError = none :=
  ⟨rfl, rfl, rfl⟩

/-- C8 (amended): update and single delete do fail fast when the target id is
absent - the backing call is never issued, the store is unchanged and the
caller gets the `User not found` failure - but bulk delete performs no
existence check and always issues the backing call. -/
theorem c8_notfound_failfast (store : List User) (e0 : Option String) (uid : Int)
    (ids : List Int) (userData : UserFormData) (nowISO : String)
    (apiU : ApiResult User) (apiD apiB : ApiResult Unit)
    (habs : store.find? (fun u => u.id == uid) = none) :
    ((UseUsers.updateUser store e0 uid userData nowISO apiU).apiCalled = false ∧
      (UseUsers.updateUser store e0 uid userData nowISO apiU).finalStore = store ∧
      (UseUsers.updateUser store e0 uid userData nowISO apiU).toastError =
        some "User not found" ∧
      (UseUsers.updateUser store e0 uid userData nowISO apiU).returned = none) ∧
    ((UseUsers.deleteUser store e0 uid apiD).apiCalled = false ∧
      (UseUsers.deleteUser store e0 uid apiD).finalStore = store ∧
      (UseUsers.deleteUser store e0 uid apiD).toastError = some "User not found" ∧
      (UseUsers.deleteUser store e0 uid apiD).ok = false) ∧
    (UseUsers.deleteUsers store e0 ids apiB).apiCalled = true := by
  refine ⟨?_, ?_, ?_⟩
  · unfold UseUsers.updateUser
    rw [habs]
    exact ⟨rfl, rfl, rfl, rfl⟩
  · unfold UseUsers.deleteUser
    rw [habs]
    exact ⟨rfl, rfl, rfl, rfl⟩
  · unfold UseUsers.deleteUsers
    cases apiB <;> rfl

/-- C8 witness: the fail-fast theorem at a store not containing id 99. -/
theorem c8_witness :
    ((UseUsers.updateUser [mkUser 1 none] none 99 sampleForm "t"
        (ApiResult.ok (mkUser 99 none))).apiCalled = false ∧
      (UseUsers.updateUser [mkUser 1 none] none 99 sampleForm "t"
        (ApiResult.ok (mkUser 99 none))).finalStore = [mkUser 1 none] ∧
      (UseUsers.updateUser [mkUser 1 none] none 99 sampleForm "t"
        (ApiResult.ok (mkUser 99 none))).toastError = some "User not found" ∧
      (UseUsers.updateUser [mkUser 1 none] none 99 sampleForm "t"
        (ApiResult.ok (mkUser 99 none))).returned = none) ∧
    ((UseUsers.deleteUser [mkUser 1 none] none 99 (ApiResult.ok ())).apiCalled = false ∧
      (UseUsers.deleteUser [mkUser 1 none] none 99 (ApiResult.ok ())).finalStore =
        [mkUser 1 none] ∧
      (UseUsers.deleteUser [mkUser 1 none] none 99 (ApiResult.ok ())).toastError =
        some "User not found" ∧
      (UseUsers.deleteUser [mkUser 1 none] none 99 (ApiResult.ok ())).ok = false) ∧
    (UseUsers.deleteUsers [mkUser 1 none] none [99] (ApiResult.ok ())).apiCalled = true :=
  c8_notfound_failfast [mkUser 1 none] none 99 [99] sampleForm "t"
    (ApiResult.ok (mkUser 99 none)) (ApiResult.ok ()) (ApiResult.ok ()) (by decide)

/-- C9, counterexample to the claim as stated: the query is not idempotent
for every criteria. Sorting the six records of `users6` ascending by the
optional field `role` (whose comparator never returns 0 and ties `undefined`
with everything) produces an output that is not sorted consistently, and
re-applying the identical criteria re-orders it. -/
theorem c9_counterexample :
    filterUsers (filterUsers users6 roleSortFilters) roleSortFilters ≠
      filterUsers users6 roleSortFilters := by
  rw [filterUsers_eq_msortFuel users6 roleSortFilters UserKey.role rfl 6 (by decide)]
  rw [filterUsers_eq_msortFuel
    (msortFuel (fun a b => sortLE roleSortFilters UserKey.role a b) 6
      (applyFilters users6 roleSortFilters))
    roleSortFilters UserKey.role rfl 6 (by decide)]
  decide

/-- C9 (amended): for every record collection and every criteria - sorted or
not, by any field - `filterUsers` returns only records drawn from the input
(order-preserving filtering, then the specified sort); and whenever the
criteria do not sort, or sort by one of the always-defined record fields (so
that the comparison is a total preorder), re-applying the identical criteria
is idempotent. With an undefined-valued sort field idempotence can fail (see
the counterexample). -/
theorem c9_subset_idempotent (users : List User) (f : UserFilters) :
    (∀ u ∈ filterUsers users f, u ∈ users) ∧
    ((∀ key, f.sortBy = some key → keyAlwaysDefined key = true) →
      filterUsers (filterUsers users f) f = filterUsers users f) := by
  have hmem : ∀ u ∈ filterUsers users f, u ∈ applyFilters users f := by
    intro u hu
    cases hk : f.sortBy with
    | none =>
      simp only [filterUsers, hk] at hu
      exact hu
    | some key =>
      simp only [filterUsers, hk] at hu
      exact List.mem_mergeSort.mp hu
  have hsubset : ∀ u ∈ filterUsers users f, u ∈ users :=
    fun u hu => (applyFilters_sublist users f).subset (hmem u hu)
  refine ⟨hsubset, ?_⟩
  intro hsort
  have hkeep : ∀ u ∈ filterUsers users f, ∀ s ∈ filterStages f,
      s.1 = true → s.2 u = true := by
    intro u hu s hs h1
    have hm := hmem u hu
    rw [applyFilters_eq_foldl] at hm
    exact mem_foldlFilter_keep (filterStages f) users u hm s hs h1
  have happ : applyFilters (filterUsers users f) f = filterUsers users f := by
    rw [applyFilters_eq_foldl]
    exact foldlFilter_eq_self (filterStages f) (filterUsers users f)
      (fun s hs u hu h1 => hkeep u hu s hs h1)
  cases hk : f.sortBy with
  | none =>
    simp only [filterUsers, hk] at happ ⊢
    exact happ
  | some key =>
    simp only [filterUsers, hk] at happ ⊢
    rw [happ]
    apply List.mergeSort_of_sorted
    exact List.sorted_mergeSort
      (fun x y z => sortLE_trans f key (hsort key hk) x y z)
      (fun x y => sortLE_total f key x y)
      (applyFilters users f)

/-- C9 witness: subset and idempotence at the concrete store `users6` with
criteria sorting by the always-defined field `name`. -/
theorem c9_witness :
    (∀ u ∈ filterUsers users6 nameSortFilters, u ∈ users6) ∧
    filterUsers (filterUsers users6 nameSortFilters) nameSortFilters =
      filterUsers users6 nameSortFilters :=
  ⟨(c9_subset_idempotent users6 nameSortFilters).1,
   (c9_subset_idempotent users6 nameSortFilters).2
     (fun key hk => by
       have h : UserKey.name = key := by simpa [nameSortFilters] using hk
       rw [← h]
       rfl)⟩

/-- C10: every operation that changes the filter criteria (`setFilters`,
`resetFilters`, and `searchUsers`) and the page-size setter `setLimit` reset
the current page to 1, so a stale page number never survives such a change. -/
theorem c10_page_reset (s : PageState) (limit : Int) (patch : UserFilters) (q : String) :
    (setLimit s limit).currentPage = 1 ∧
    (setFilters s patch).currentPage = 1 ∧
    (resetFilters s).currentPage = 1 ∧
    (searchUsers s q).currentPage = 1 :=
  ⟨rfl, rfl, rfl, rfl⟩
